import Mathlib

/-!
# Verification of `faro.Database` (src/faro/database.py)

Shallow embedding of the `faro` in-memory tabular database and its
row-mapping engine, together with proofs of the specification claims.

Modelling conventions:

* A cell value is a small scalar type `Value` (integers, text, null);
  the claims under verification only exercise integer and text cells.
* A `Frame` models both a SQLite relation's contents and a
  `pandas.DataFrame`: an ordered column-name list plus rows of values.
* The SQLite engine is modelled by `engineExec`: a character-level
  lexer (`lexAux`) and parser (`parseToks`) for exactly the statement
  shapes the Python code emits, evaluated against a catalog of named
  frames.  Per documented SQLite behaviour, the table-valued function
  `pragma_table_info` yields **no rows** (not an error) when its
  argument does not name a table; `SELECT` on a missing table is an
  error.
* Python exceptions become the `FaroError` type, one constructor per
  `raise` site of the code (the Python code distinguishes them only by
  message text).
* Fallible methods of the `Database` class become functions
  `Database → … → Except FaroError Database` (or a result); an
  `Except.error` result models a raised exception, which in the source
  leaves the database state unchanged whenever it is raised before the
  single mutating engine call (`DataFrame.to_sql`).
-/

/-- A scalar cell value, as stored in a relation / dataframe. -/
inductive Value where
  | int : Int → Value
  | text : String → Value
  | null : Value
deriving DecidableEq, Repr

/-- An ordered-column table of rows: models both a SQLite relation's
contents and a `pandas.DataFrame` (column labels plus value rows). -/
structure Frame where
  cols : List String
  rows : List (List Value)
deriving DecidableEq, Repr

/-- The engine catalog: named relations, in creation order. -/
abbrev Catalog := List (String × Frame)

/-- One constructor per `raise` site of src/faro/database.py (the Python
code raises `ValueError` / `TypeError` / engine errors distinguished by
message; we keep the distinguishing data as fields). -/
inductive FaroError where
  /-- database.py:70 — `add_table` given a policy outside fail/replace/append. -/
  | invalidPolicy
  /-- database.py:73 — `add_table` with a registered name and policy `fail`. -/
  | alreadyExists (name : String)
  /-- database.py:175 — `query` given more than one non-empty statement. -/
  | multiStatement
  /-- database.py:239 and database.py:302 — output column exists, overwrite false. -/
  | columnExists (output : String)
  /-- database.py:291 — a `map_into` argument name is not a column of the table. -/
  | unboundParameter (arg : String) (table : String)
  /-- pandas `df[columns]` with a column absent from the frame (database.py:242). -/
  | keyError (column : String)
  /-- an error reported by the SQLite engine itself (syntax error, missing
  table, missing column, to_sql failure), surfaced unchanged. -/
  | engine (msg : String)
deriving DecidableEq, Repr

/-! ## The identifier sanitizer (database.py:335-336)

```python
def escape_sqlite_ident(ident):
    return '"' + ident.replace('"', '""') + '"'
```

`str.replace` with a one-character pattern replaces every occurrence,
character by character; `escChars` is that character-level model. -/

/-- Character-level model of `ident.replace('"', '""')`. -/
def escChars : List Char → List Char
  | [] => []
  | c :: cs => if c = '"' then '"' :: '"' :: escChars cs else c :: escChars cs

/-- `escape_sqlite_ident` (database.py:335-336). -/
def escape_sqlite_ident (ident : String) : String :=
  ⟨'"' :: (escChars ident.data ++ ['"'])⟩

/-! ## The engine's lexer

SQLite tokenization, restricted to what the statements built by
database.py can contain: whitespace, bare words, `"`-quoted identifiers
(with `""` as an escaped quote, unterminated quote = error), `*`, `,`,
`(`, `)` and `;`.  Any other character is a lexical error. -/

inductive Tok where
  | word : String → Tok
  | quoted : String → Tok
  | star : Tok
  | comma : Tok
  | lparen : Tok
  | rparen : Tok
  | semi : Tok
deriving DecidableEq, Repr

def isWordChar (c : Char) : Bool :=
  c.isAlphanum || c = '_'

def isSpaceChar (c : Char) : Bool :=
  c = ' ' || c = '\n' || c = '\t' || c = '\r'

def symTok (c : Char) : Option Tok :=
  if c = '*' then some Tok.star
  else if c = ',' then some Tok.comma
  else if c = '(' then some Tok.lparen
  else if c = ')' then some Tok.rparen
  else if c = ';' then some Tok.semi
  else none

/-- Lexer state: between tokens, inside a bare word, inside a quoted
identifier, or just after a `"` seen inside a quoted identifier. -/
inductive LexMode where
  | normal : LexMode
  | word : List Char → LexMode
  | quote : List Char → LexMode
  | quoteQ : List Char → LexMode

/-- One-pass lexer; `acc` holds the tokens recognized so far, reversed. -/
def lexAux : LexMode → List Char → List Tok → Option (List Tok)
  | .normal, [], acc => some acc.reverse
  | .word w, [], acc => some (Tok.word ⟨w⟩ :: acc).reverse
  | .quote _, [], _ => none
  | .quoteQ q, [], acc => some (Tok.quoted ⟨q⟩ :: acc).reverse
  | .normal, c :: cs, acc =>
    if isSpaceChar c then lexAux .normal cs acc
    else if c = '"' then lexAux (.quote []) cs acc
    else if isWordChar c then lexAux (.word [c]) cs acc
    else match symTok c with
      | some t => lexAux .normal cs (t :: acc)
      | none => none
  | .word w, c :: cs, acc =>
    if isWordChar c then lexAux (.word (w ++ [c])) cs acc
    else if isSpaceChar c then lexAux .normal cs (Tok.word ⟨w⟩ :: acc)
    else if c = '"' then lexAux (.quote []) cs (Tok.word ⟨w⟩ :: acc)
    else match symTok c with
      | some t => lexAux .normal cs (t :: Tok.word ⟨w⟩ :: acc)
      | none => none
  | .quote q, c :: cs, acc =>
    if c = '"' then lexAux (.quoteQ q) cs acc
    else lexAux (.quote (q ++ [c])) cs acc
  | .quoteQ q, c :: cs, acc =>
    if c = '"' then lexAux (.quote (q ++ ['"'])) cs acc
    else if isSpaceChar c then lexAux .normal cs (Tok.quoted ⟨q⟩ :: acc)
    else if isWordChar c then lexAux (.word [c]) cs (Tok.quoted ⟨q⟩ :: acc)
    else match symTok c with
      | some t => lexAux .normal cs (t :: Tok.quoted ⟨q⟩ :: acc)
      | none => none

/-- Tokenize a whole SQL string. -/
def tokenize (s : String) : Option (List Tok) :=
  lexAux .normal s.data []

example : tokenize "select * from \"a\"\"b\"" =
    some [Tok.word "select", Tok.star, Tok.word "from", Tok.quoted "a\"b"] := by
  rfl

example : tokenize "SELECT * FROM a\"b" = none := by rfl

/-! ## The engine's parser

Structured form of the statements database.py emits:

* `SELECT * FROM ident`                       (database.py:231, 310)
* `SELECT ident, …, ident FROM ident`         (database.py:294-295)
* `select name from pragma_table_info(ident)` (database.py:317)

Keywords are matched ASCII-case-insensitively, as in SQLite. -/

inductive SqlStmt where
  | selectStar : String → SqlStmt
  | selectCols : List String → String → SqlStmt
  | pragmaTableInfoNames : String → SqlStmt
deriving DecidableEq, Repr

/-- ASCII lower-casing, as SQLite applies to keywords. -/
def lowerChar (c : Char) : Char :=
  if 'A' ≤ c ∧ c ≤ 'Z' then Char.ofNat (c.toNat + 32) else c

def lowerStr (s : String) : String :=
  ⟨s.data.map lowerChar⟩

/-- A token usable as an identifier. -/
def identOf : Tok → Option String
  | .word s => some s
  | .quoted s => some s
  | _ => none

/-- Parse `ident (, ident)*`; returns the names and the remaining tokens. -/
def parseSelList : List Tok → Option (List String × List Tok)
  | [] => none
  | t :: ts =>
    match identOf t with
    | none => none
    | some s =>
      match ts with
      | .comma :: ts2 =>
        (parseSelList ts2).map (fun p => (s :: p.1, p.2))
      | _ => some ([s], ts)

def isSemiTok : Tok → Bool
  | .semi => true
  | _ => false

/-- Drop trailing statement separators (a lone trailing `;` is legal). -/
def stripSemis (ts : List Tok) : List Tok :=
  (ts.reverse.dropWhile isSemiTok).reverse

/-- What may follow `SELECT cols FROM`: a plain table reference, or the
`pragma_table_info(…)` table-valued function (only with select list
`name`, the one shape database.py emits). -/
def parseAfterFrom (cols : List String) : List Tok → Option SqlStmt
  | [.word pfn, .lparen, arg, .rparen] =>
    if lowerStr pfn = "pragma_table_info" ∧ cols = ["name"] then
      (identOf arg).map SqlStmt.pragmaTableInfoNames
    else none
  | [tbl] => (identOf tbl).map (SqlStmt.selectCols cols)
  | _ => none

/-- What follows the `SELECT` keyword. -/
def parseSelBody : List Tok → Option SqlStmt
  | .star :: .word frm :: rest2 =>
    if lowerStr frm = "from" then
      match rest2 with
      | [tbl] => (identOf tbl).map SqlStmt.selectStar
      | _ => none
    else none
  | rest =>
    match parseSelList rest with
    | some (cols, .word frm :: rest2) =>
      if lowerStr frm = "from" then parseAfterFrom cols rest2 else none
    | _ => none

def parseToks : List Tok → Option SqlStmt
  | .word sel :: rest =>
    if lowerStr sel = "select" then parseSelBody rest else none
  | _ => none

def parseSql (sql : String) : Option SqlStmt :=
  match tokenize sql with
  | none => none
  | some ts => parseToks (stripSemis ts)

example : parseSql "SELECT * FROM t" = some (SqlStmt.selectStar "t") := by rfl

example : parseSql "select * from \"a\"\"b\";" = some (SqlStmt.selectStar "a\"b") := by
  rfl

example : parseSql "SELECT \"id\", \"val\"\n                  FROM \"t\"" =
    some (SqlStmt.selectCols ["id", "val"] "t") := by rfl

example : parseSql "select name from pragma_table_info(\"t\")" =
    some (SqlStmt.pragmaTableInfoNames "t") := by rfl

/-! ## The engine -/

/-- Catalog lookup by relation name (first match). -/
def Catalog.lookup (cat : Catalog) (name : String) : Option Frame :=
  match cat with
  | [] => none
  | e :: rest => if e.1 = name then some e.2 else Catalog.lookup rest name

/-- Replace the frame stored under `name`, keeping catalog order. -/
def Catalog.replace (cat : Catalog) (name : String) (fr : Frame) : Catalog :=
  cat.map (fun e => if e.1 = name then (name, fr) else e)

/-- Index of the first occurrence of `c` in a column list (the engine's
and pandas' name resolution). -/
def idxOf? (cols : List String) (c : String) : Option Nat :=
  match cols with
  | [] => none
  | x :: rest => if x = c then some 0 else (idxOf? rest c).map (fun i => i + 1)

/-- Resolve each requested column name to its index; `none` when a name
is not a column. -/
def projectIdxs (cols : List String) : List String → Option (List Nat)
  | [] => some []
  | c :: cs =>
    match idxOf? cols c, projectIdxs cols cs with
    | some i, some is => some (i :: is)
    | _, _ => none

/-- Project a frame onto the named columns (in that order); `none` when a
name is not a column. -/
def Frame.project (fr : Frame) (cs : List String) : Option Frame :=
  match projectIdxs fr.cols cs with
  | none => none
  | some idxs =>
    some ⟨cs, fr.rows.map (fun r => idxs.map (fun i => r.getD i Value.null))⟩

/-- Evaluate one parsed statement against the catalog.  All statement
shapes the code emits are reads.  Per SQLite, `pragma_table_info` yields
no rows (rather than an error) for an unknown table. -/
def execStmt (cat : Catalog) : SqlStmt → Except FaroError Frame
  | .selectStar t =>
    match Catalog.lookup cat t with
    | some fr => .ok fr
    | none => .error (.engine ("no such table: " ++ t))
  | .selectCols cs t =>
    match Catalog.lookup cat t with
    | some fr =>
      match fr.project cs with
      | some fr2 => .ok fr2
      | none => .error (.engine "no such column")
    | none => .error (.engine ("no such table: " ++ t))
  | .pragmaTableInfoNames t =>
    .ok ⟨["name"],
         match Catalog.lookup cat t with
         | some fr => fr.cols.map (fun c => [Value.text c])
         | none => []⟩

/-- Execute one SQL string against the catalog: lex and parse it, then
evaluate; anything the restricted grammar rejects is an engine error. -/
def engineExec (cat : Catalog) (sql : String) : Except FaroError Frame :=
  match parseSql sql with
  | none => .error (.engine "syntax error")
  | some stmt => execStmt cat stmt

/-- Model of `pandas.DataFrame.to_sql(name, conn, if_exists, index=False)`
(database.py:122): create, replace wholesale, or append rows; `fail`
errors when the relation exists in the engine; `append` requires a
compatible schema (delegated to the engine, modelled as same columns). -/
def toSql (cat : Catalog) (df : Frame) (name : String) (if_exists : String) :
    Except FaroError Catalog :=
  match Catalog.lookup cat name with
  | none => .ok (cat ++ [(name, df)])
  | some old =>
    if if_exists = "replace" then .ok (Catalog.replace cat name df)
    else if if_exists = "append" then
      if old.cols = df.cols then
        .ok (Catalog.replace cat name ⟨old.cols, old.rows ++ df.rows⟩)
      else .error (.engine "schema mismatch on append")
    else .error (.engine ("table " ++ name ++ " already exists"))

/-- `df[output] = result` (pandas): overwrite the column in place if it
exists, otherwise attach it as the last column. -/
def Frame.setCol (fr : Frame) (output : String) (vals : List Value) : Frame :=
  match idxOf? fr.cols output with
  | some i => ⟨fr.cols, (fr.rows.zip vals).map (fun p => p.1.set i p.2)⟩
  | none => ⟨fr.cols ++ [output], (fr.rows.zip vals).map (fun p => p.1 ++ [p.2])⟩

/-- The values of the column named `c`, when present. -/
def Frame.getCol (fr : Frame) (c : String) : Option (List Value) :=
  (idxOf? fr.cols c).map
    (fun i => fr.rows.map (fun r => r.getD i Value.null))

/-! ## Python functions

`map_into` introspects its function argument via
`func.__code__.co_varnames[:func.__code__.co_argcount]`
(database.py:287).  Per the CPython data model, `co_argcount` is "the
number of positional parameters (including parameters with default
values)", and `co_varnames` begins with the parameter names in declared
order; so that slice is exactly the positional (plain, non-variadic,
non-keyword-only) parameter names, defaults included. -/

/-- A Python function value: its declared signature plus its behaviour.
`posParams` are the positional parameter names in declared order, of
which the last `defaults` carry default values; `kwOnly`, `hasVarargs`
and `hasKwargs` record the rest of the signature.  `implPos vs` is the
result of calling the function with `vs` bound to `posParams`
positionally (the only call shapes the code performs supply every
positional parameter). -/
structure PyFunc where
  posParams : List String
  defaults : Nat
  kwOnly : List String
  hasVarargs : Bool
  hasKwargs : Bool
  implPos : List Value → Value

/-- `func.__code__.co_varnames[:func.__code__.co_argcount]`
(database.py:287): all positional parameters, defaults included. -/
def PyFunc.argNames (f : PyFunc) : List String :=
  f.posParams

/-- Modelled from the spec: the binding column list as §4.4 step 2 of the
spec words it for `map_into` — "the plain declared names, in declared
order", *excluding* variadic and defaulted parameters.  Kept separate
from `PyFunc.argNames` (the source's introspection) so the two can be
compared. -/
def specDeclaredBindingNames (f : PyFunc) : List String :=
  f.posParams.take (f.posParams.length - f.defaults)

/-- Value of column `p` in row `r` of a frame with columns `cols`
(first occurrence when duplicated; `null` when absent — the code paths
proved below only evaluate it on present columns). -/
def rowValueByName (cols : List String) (r : List Value) (p : String) : Value :=
  match idxOf? cols p with
  | some i => r.getD i Value.null
  | none => Value.null

/-! ## The `Database` class (database.py:12-333)

State: the engine catalog (owned connection) and the `_tables` registry.
The display name `_name` influences no claimed operation and is omitted.
The `isinstance` validations of `map`/`map_into` (database.py:220-229,
281-286) are enforced by the embedding's types and not re-modelled. -/

structure Database where
  catalog : Catalog
  tables : List String
deriving DecidableEq, Repr

/-- Python `', '.join(strs)` (database.py:294). -/
def commaJoin : List String → String
  | [] => ""
  | [s] => s
  | s :: rest => s ++ ", " ++ commaJoin rest

/-- Python `sql.split(';')`, character-level. -/
def splitSemis : List Char → List (List Char)
  | [] => [[]]
  | c :: cs =>
    if c = ';' then [] :: splitSemis cs
    else
      match splitSemis cs with
      | [] => [[c]]
      | p :: ps => (c :: p) :: ps

/-- `Database.query` (database.py:145-182): split on the statement
separator, reject more than one non-empty statement before any engine
execution, then execute and materialize the full result set. -/
def Database.query (db : Database) (sql : String) : Except FaroError Frame :=
  if ((splitSemis sql.data).filter (fun e => e ≠ [])).length > 1 then
    .error .multiStatement
  else
    engineExec db.catalog sql

/-- `Database.add_table` (database.py:27-92), for an in-memory dataframe
source (the only source shape the claims exercise): validate the policy,
enforce the fail-policy registry check before any engine call, write via
`to_sql`, then register the name idempotently. -/
def Database.add_table (db : Database) (df : Frame) (name : String)
    (if_exists : String) : Except FaroError Database :=
  if ¬ (if_exists = "fail" ∨ if_exists = "replace" ∨ if_exists = "append") then
    .error .invalidPolicy
  else if name ∈ db.tables ∧ if_exists = "fail" then
    .error (.alreadyExists name)
  else
    match toSql db.catalog df name if_exists with
    | .error e => .error e
    | .ok cat2 =>
      .ok ⟨cat2, if name ∈ db.tables then db.tables else db.tables ++ [name]⟩

/-- `Database.column_names` (database.py:316-319): build the pragma query
with the sanitized identifier, execute it directly on the cursor, and
collect the first field of each row. -/
def Database.column_names (db : Database) (table : String) :
    Except FaroError (List String) :=
  match engineExec db.catalog
      ("select name from pragma_table_info(" ++ escape_sqlite_ident table ++ ")") with
  | .error e => .error e
  | .ok fr =>
    .ok (fr.rows.map (fun r =>
      match r.headD Value.null with
      | Value.text s => s
      | _ => ""))

/-- `Database.map` (database.py:184-246): fetch the whole table with the
**raw** table name interpolated into the SQL, enforce the overwrite
policy, project the requested columns, call `func` positionally on each
row, attach the result column, and persist by whole-relation replace. -/
def Database.map (db : Database) (func : PyFunc) (table : String)
    (columns : List String) (output : String) (overwrite : Bool) :
    Except FaroError Database :=
  match db.query ("SELECT * FROM " ++ table) with
  | .error e => .error e
  | .ok df =>
    if output ∈ df.cols ∧ overwrite = false then
      .error (.columnExists output)
    else
      match df.project columns with
      | none => .error (.keyError "columns not in frame")
      | some sub =>
        let result := sub.rows.map func.implPos
        db.add_table (df.setCol output result) table "replace"

/-- `Database.map_into` (database.py:248-314): derive the binding list
from the function's positional parameter names, validate each against
`column_names`, fetch exactly those columns (sanitized identifiers),
enforce the overwrite policy, call `func` once per row with arguments
bound by name (`func(**row)` on the records of the fetched frame),
re-fetch the entire table, attach the result column, and persist by
whole-relation replace. -/
def Database.map_into (db : Database) (func : PyFunc) (table : String)
    (output : String) (overwrite : Bool) : Except FaroError Database :=
  let arg_names := func.argNames
  match db.column_names table with
  | .error e => .error e
  | .ok col_names =>
    match arg_names.find? (fun a => !(col_names.contains a)) with
    | some a => .error (.unboundParameter a table)
    | none =>
      match db.query ("SELECT "
          ++ commaJoin (arg_names.map escape_sqlite_ident)
          ++ "\n                  FROM " ++ escape_sqlite_ident table) with
      | .error e => .error e
      | .ok df =>
        if output ∈ col_names ∧ overwrite = false then
          .error (.columnExists output)
        else
          let result := df.rows.map (fun r =>
            func.implPos (func.argNames.map (rowValueByName df.cols r)))
          match db.query ("select * from " ++ escape_sqlite_ident table) with
          | .error e => .error e
          | .ok full =>
            db.add_table (full.setCol output result) table "replace"


/-! ## Lexer lemmas

Chunk lemmas describing how `lexAux` consumes the pieces from which
database.py assembles its SQL strings. -/

theorem lexAux_escChars (l b : List Char) (q : List Char) (acc : List Tok) :
    lexAux (.quote q) (escChars l ++ '"' :: b) acc
      = lexAux (.quoteQ (q ++ l)) b acc := by
  induction l generalizing q with
  | nil => simp [escChars, lexAux]
  | cons c l ih =>
    by_cases hc : c = '"'
    · subst hc
      show lexAux (.quote q) ('"' :: '"' :: (escChars l ++ '"' :: b)) acc = _
      rw [show lexAux (.quote q) ('"' :: '"' :: (escChars l ++ '"' :: b)) acc
            = lexAux (.quote (q ++ ['"'])) (escChars l ++ '"' :: b) acc from rfl,
          ih]
      simp
    · rw [show escChars (c :: l) = c :: escChars l by simp [escChars, hc],
          show lexAux (.quote q) (c :: escChars l ++ '"' :: b) acc
            = lexAux (.quote (q ++ [c])) (escChars l ++ '"' :: b) acc by
            simp [lexAux, hc],
          ih]
      simp

theorem lexAux_escape (s : String) (b : List Char) (acc : List Tok) :
    lexAux .normal ((escape_sqlite_ident s).data ++ b) acc
      = lexAux (.quoteQ s.data) b acc := by
  show lexAux .normal (('"' :: (escChars s.data ++ ['"'])) ++ b) acc = _
  rw [show ('"' :: (escChars s.data ++ ['"'])) ++ b
        = '"' :: (escChars s.data ++ '"' :: b) by simp,
      show lexAux .normal ('"' :: (escChars s.data ++ '"' :: b)) acc
        = lexAux (.quote []) (escChars s.data ++ '"' :: b) acc from rfl,
      lexAux_escChars]
  rfl

theorem lexAux_quoteQ_nil (q : List Char) (acc : List Tok) :
    lexAux (.quoteQ q) [] acc = some (Tok.quoted ⟨q⟩ :: acc).reverse := rfl

theorem lexAux_quoteQ_comma (q cs : List Char) (acc : List Tok) :
    lexAux (.quoteQ q) (',' :: cs) acc
      = lexAux .normal cs (Tok.comma :: Tok.quoted ⟨q⟩ :: acc) := rfl

theorem lexAux_quoteQ_newline (q cs : List Char) (acc : List Tok) :
    lexAux (.quoteQ q) ('\n' :: cs) acc
      = lexAux .normal cs (Tok.quoted ⟨q⟩ :: acc) := rfl

theorem lexAux_quoteQ_rparen (q cs : List Char) (acc : List Tok) :
    lexAux (.quoteQ q) (')' :: cs) acc
      = lexAux .normal cs (Tok.rparen :: Tok.quoted ⟨q⟩ :: acc) := rfl

theorem lex_pragma_head (b : List Char) (acc : List Tok) :
    lexAux .normal ("select name from pragma_table_info(".data ++ b) acc
      = lexAux .normal b
          (Tok.lparen :: Tok.word "pragma_table_info" :: Tok.word "from"
            :: Tok.word "name" :: Tok.word "select" :: acc) := rfl

theorem lex_star_head (b : List Char) (acc : List Tok) :
    lexAux .normal ("select * from ".data ++ b) acc
      = lexAux .normal b
          (Tok.word "from" :: Tok.star :: Tok.word "select" :: acc) := rfl

theorem lex_upper_select_head (b : List Char) (acc : List Tok) :
    lexAux .normal ("SELECT ".data ++ b) acc
      = lexAux .normal b (Tok.word "SELECT" :: acc) := rfl

theorem lex_from_tail_head (b : List Char) (acc : List Tok) :
    lexAux .normal ("\n                  FROM ".data ++ b) acc
      = lexAux .normal b (Tok.word "FROM" :: acc) := rfl

/-- The token sequence of a comma-separated identifier list. -/
def selToks : List String → List Tok
  | [] => []
  | [a] => [Tok.quoted a]
  | a :: rest => Tok.quoted a :: Tok.comma :: selToks rest

theorem lex_commaJoin_escaped (args : List String) (cs : List Char)
    (acc : List Tok) (h : args ≠ []) :
    lexAux .normal
        ((commaJoin (args.map escape_sqlite_ident)).data ++ '\n' :: cs) acc
      = lexAux .normal ('\n' :: cs) ((selToks args).reverse ++ acc) := by
  induction args generalizing acc with
  | nil => exact absurd rfl h
  | cons a rest ih =>
    cases rest with
    | nil =>
      show lexAux .normal ((escape_sqlite_ident a).data ++ '\n' :: cs) acc = _
      rw [lexAux_escape, lexAux_quoteQ_newline]
      rfl
    | cons a2 rest2 =>
      have hd : (commaJoin ((a :: a2 :: rest2).map escape_sqlite_ident)).data
          = (escape_sqlite_ident a).data
            ++ (',' :: ' '
                :: (commaJoin ((a2 :: rest2).map escape_sqlite_ident)).data) := by
        show (escape_sqlite_ident a ++ ", "
            ++ commaJoin ((a2 :: rest2).map escape_sqlite_ident)).data = _
        rw [String.data_append, String.data_append, List.append_assoc]
        rfl
      rw [hd, List.append_assoc]
      rw [show (',' :: ' '
            :: (commaJoin ((a2 :: rest2).map escape_sqlite_ident)).data) ++ '\n' :: cs
          = ',' :: ' '
            :: ((commaJoin ((a2 :: rest2).map escape_sqlite_ident)).data ++ '\n' :: cs)
          from rfl]
      rw [lexAux_escape, lexAux_quoteQ_comma]
      rw [show lexAux .normal
            (' ' :: ((commaJoin ((a2 :: rest2).map escape_sqlite_ident)).data ++ '\n' :: cs))
            (Tok.comma :: Tok.quoted a :: acc)
          = lexAux .normal
            ((commaJoin ((a2 :: rest2).map escape_sqlite_ident)).data ++ '\n' :: cs)
            (Tok.comma :: Tok.quoted a :: acc) from rfl]
      rw [ih (Tok.comma :: Tok.quoted a :: acc) (by simp)]
      have : selToks (a :: a2 :: rest2)
          = Tok.quoted a :: Tok.comma :: selToks (a2 :: rest2) := rfl
      rw [this]
      simp

theorem lexAux_escape_nil (s : String) (acc : List Tok) :
    lexAux .normal (escape_sqlite_ident s).data acc
      = some ((Tok.quoted s :: acc).reverse) := by
  have h := lexAux_escape s [] acc
  rw [List.append_nil] at h
  rw [h]
  rfl

/-! ## Parse results for the statements database.py builds -/

theorem parseSql_pragma (t : String) :
    parseSql ("select name from pragma_table_info("
        ++ escape_sqlite_ident t ++ ")")
      = some (SqlStmt.pragmaTableInfoNames t) := by
  unfold parseSql tokenize
  rw [String.data_append, String.data_append, List.append_assoc,
      lex_pragma_head, lexAux_escape, lexAux_quoteQ_rparen]
  rfl

theorem parseSql_star_escaped (t : String) :
    parseSql ("select * from " ++ escape_sqlite_ident t)
      = some (SqlStmt.selectStar t) := by
  unfold parseSql tokenize
  rw [String.data_append, lex_star_head, lexAux_escape_nil]
  rfl

theorem parseSelList_selToks (args : List String) (rest : List Tok)
    (h : args ≠ []) :
    parseSelList (selToks args ++ Tok.word "FROM" :: rest)
      = some (args, Tok.word "FROM" :: rest) := by
  induction args with
  | nil => exact absurd rfl h
  | cons a args2 ih =>
    cases args2 with
    | nil => rfl
    | cons b args3 =>
      show parseSelList (Tok.quoted a :: Tok.comma
          :: (selToks (b :: args3) ++ Tok.word "FROM" :: rest)) = _
      rw [show parseSelList (Tok.quoted a :: Tok.comma
            :: (selToks (b :: args3) ++ Tok.word "FROM" :: rest))
          = (parseSelList (selToks (b :: args3) ++ Tok.word "FROM" :: rest)).map
              (fun p => (a :: p.1, p.2)) from rfl,
          ih (by simp)]
      rfl

theorem parseToks_mapinto (args : List String) (t : String) (h : args ≠ []) :
    parseToks (Tok.word "SELECT"
        :: (selToks args ++ [Tok.word "FROM", Tok.quoted t]))
      = some (SqlStmt.selectCols args t) := by
  have hsel : parseSelList (selToks args ++ [Tok.word "FROM", Tok.quoted t])
      = some (args, [Tok.word "FROM", Tok.quoted t]) :=
    parseSelList_selToks args [Tok.quoted t] h
  cases args with
  | nil => exact absurd rfl h
  | cons a args2 =>
    cases args2 with
    | nil => rfl
    | cons b args3 =>
      have key : parseToks (Tok.word "SELECT"
            :: (selToks (a :: b :: args3) ++ [Tok.word "FROM", Tok.quoted t]))
          = match parseSelList (selToks (a :: b :: args3)
                ++ [Tok.word "FROM", Tok.quoted t]) with
            | some (cols, Tok.word frm :: rest2) =>
              if lowerStr frm = "from" then parseAfterFrom cols rest2 else none
            | _ => none := rfl
      rw [key, hsel]
      rfl

theorem data_from_tail :
    ("\n                  FROM " : String).data
      = '\n' :: ("                  FROM " : String).data := rfl

theorem lex_normal_newline (cs : List Char) (acc : List Tok) :
    lexAux .normal ('\n' :: cs) acc = lexAux .normal cs acc := rfl

theorem lex_spaces_from_head (b : List Char) (acc : List Tok) :
    lexAux .normal ("                  FROM ".data ++ b) acc
      = lexAux .normal b (Tok.word "FROM" :: acc) := rfl

theorem parseSql_mapinto (args : List String) (t : String) (h : args ≠ []) :
    parseSql ("SELECT " ++ commaJoin (args.map escape_sqlite_ident)
        ++ "\n                  FROM " ++ escape_sqlite_ident t)
      = some (SqlStmt.selectCols args t) := by
  unfold parseSql tokenize
  rw [String.data_append, String.data_append, String.data_append,
      List.append_assoc, List.append_assoc]
  rw [lex_upper_select_head]
  rw [data_from_tail, List.cons_append]
  rw [lex_commaJoin_escaped args _ _ h]
  rw [lex_normal_newline, lex_spaces_from_head, lexAux_escape_nil]
  have hrev : (Tok.quoted t :: Tok.word "FROM"
        :: ((selToks args).reverse ++ [Tok.word "SELECT"])).reverse
      = Tok.word "SELECT" :: (selToks args ++ [Tok.word "FROM", Tok.quoted t]) := by
    simp
  rw [hrev]
  have hstrip : stripSemis (Tok.word "SELECT"
        :: (selToks args ++ [Tok.word "FROM", Tok.quoted t]))
      = Tok.word "SELECT" :: (selToks args ++ [Tok.word "FROM", Tok.quoted t]) := by
    unfold stripSemis
    rw [show (Tok.word "SELECT" :: (selToks args ++ [Tok.word "FROM", Tok.quoted t])
          : List Tok).reverse
        = Tok.quoted t :: (Tok.word "FROM" :: (selToks args).reverse
            ++ [Tok.word "SELECT"]) by simp]
    rw [List.dropWhile_cons]
    simp [isSemiTok]
  show parseToks (stripSemis (Tok.word "SELECT"
      :: (selToks args ++ [Tok.word "FROM", Tok.quoted t]))) = _
  rw [hstrip]
  exact parseToks_mapinto args t h

theorem parseSql_mapinto_empty (t : String) :
    parseSql ("SELECT " ++ commaJoin []
        ++ "\n                  FROM " ++ escape_sqlite_ident t) = none := by
  unfold parseSql tokenize
  rw [String.data_append, String.data_append, String.data_append,
      List.append_assoc, List.append_assoc]
  rw [show (commaJoin []).data = ([] : List Char) from rfl]
  rw [List.nil_append, lex_upper_select_head, data_from_tail, List.cons_append,
      lex_normal_newline, lex_spaces_from_head, lexAux_escape_nil]
  rfl

/-! ## Engine-level lemmas -/

theorem engineExec_pragma (cat : Catalog) (t : String) :
    engineExec cat ("select name from pragma_table_info("
        ++ escape_sqlite_ident t ++ ")")
      = .ok ⟨["name"],
             match Catalog.lookup cat t with
             | some fr => fr.cols.map (fun c => [Value.text c])
             | none => []⟩ := by
  unfold engineExec
  rw [parseSql_pragma]
  rfl

theorem extract_names (cols : List String) :
    (cols.map (fun c => [Value.text c])).map (fun r =>
      match r.headD Value.null with
      | Value.text s => s
      | _ => "") = cols := by
  induction cols with
  | nil => rfl
  | cons c cols ih =>
    simp only [List.map_cons]
    rw [ih]
    rfl

/-- `column_names` never fails: the engine's `pragma_table_info` returns
the column list of an existing table and no rows for a missing one. -/
theorem column_names_eq (db : Database) (t : String) :
    db.column_names t
      = .ok (match Catalog.lookup db.catalog t with
             | some fr => fr.cols
             | none => []) := by
  unfold Database.column_names
  rw [engineExec_pragma]
  cases h : Catalog.lookup db.catalog t with
  | none => rfl
  | some fr =>
    show Except.ok ((fr.cols.map (fun c => [Value.text c])).map _) = _
    rw [extract_names]

/-! ## Statement-splitting lemmas (`query`'s single-statement check) -/

theorem splitSemis_no_semi (cs : List Char) (h : ';' ∉ cs) :
    splitSemis cs = [cs] := by
  induction cs with
  | nil => rfl
  | cons c cs ih =>
    have hc : ¬ c = ';' := fun e => h (e ▸ List.mem_cons_self c cs)
    have hcs : ';' ∉ cs := fun m => h (List.mem_cons_of_mem c m)
    simp [splitSemis, hc, ih hcs]

theorem query_eq_exec_of_no_semi (db : Database) (sql : String)
    (h : ';' ∉ sql.data) :
    db.query sql = engineExec db.catalog sql := by
  unfold Database.query
  rw [splitSemis_no_semi sql.data h]
  have hle : (([sql.data]).filter (fun e => e ≠ [])).length ≤ 1 := by
    calc (([sql.data]).filter (fun e => e ≠ [])).length
        ≤ ([sql.data] : List (List Char)).length := List.length_filter_le _ _
      _ = 1 := rfl
  rw [if_neg (by omega)]

theorem mem_escChars (c : Char) (l : List Char) (hc : c ≠ '"') :
    c ∈ escChars l ↔ c ∈ l := by
  induction l with
  | nil => simp [escChars]
  | cons d l ih =>
    by_cases hd : d = '"'
    · subst hd
      simp [escChars, ih, hc]
    · simp [escChars, hd, ih]

theorem semi_not_mem_escape (t : String) (h : ';' ∉ t.data) :
    ';' ∉ (escape_sqlite_ident t).data := by
  show ';' ∉ '"' :: (escChars t.data ++ ['"'])
  simp [mem_escChars ';' t.data (by decide), h]

theorem commaJoin_data_cons (a b : String) (ss2 : List String) :
    (commaJoin ((a :: b :: ss2).map escape_sqlite_ident)).data
      = (escape_sqlite_ident a).data
        ++ (',' :: ' ' :: (commaJoin ((b :: ss2).map escape_sqlite_ident)).data) := by
  show (escape_sqlite_ident a ++ ", "
      ++ commaJoin ((b :: ss2).map escape_sqlite_ident)).data = _
  rw [String.data_append, String.data_append, List.append_assoc]
  rfl

theorem semi_not_mem_commaJoin (ss : List String)
    (h : ∀ s ∈ ss, ';' ∉ s.data) :
    ';' ∉ (commaJoin (ss.map escape_sqlite_ident)).data := by
  induction ss with
  | nil => simp [commaJoin]
  | cons a ss ih =>
    cases ss with
    | nil => exact semi_not_mem_escape a (h a (by simp))
    | cons b ss2 =>
      rw [commaJoin_data_cons]
      intro hm
      rcases List.mem_append.mp hm with h1m | h2m
      · exact semi_not_mem_escape a (h a (by simp)) h1m
      · simp only [List.mem_cons] at h2m
        rcases h2m with hc | hc | hc
        · exact absurd hc (by decide)
        · exact absurd hc (by decide)
        · exact ih (fun s hs => h s (List.mem_cons_of_mem a hs)) hc

theorem semi_not_mem_mapinto_sql (args : List String) (t : String)
    (h1 : ∀ p ∈ args, ';' ∉ p.data) (h2 : ';' ∉ t.data) :
    ';' ∉ ("SELECT " ++ commaJoin (args.map escape_sqlite_ident)
        ++ "\n                  FROM " ++ escape_sqlite_ident t).data := by
  rw [String.data_append, String.data_append, String.data_append]
  intro hm
  rcases List.mem_append.mp hm with hm | hm
  · rcases List.mem_append.mp hm with hm | hm
    · rcases List.mem_append.mp hm with hm | hm
      · exact absurd hm (by decide)
      · exact semi_not_mem_commaJoin args h1 hm
    · exact absurd hm (by decide)
  · exact semi_not_mem_escape t h2 hm

theorem semi_not_mem_refetch_sql (t : String) (h : ';' ∉ t.data) :
    ';' ∉ ("select * from " ++ escape_sqlite_ident t).data := by
  rw [String.data_append]
  intro hm
  rcases List.mem_append.mp hm with hm | hm
  · exact absurd hm (by decide)
  · exact semi_not_mem_escape t h hm

/-! ## Index / column lemmas -/

theorem idxOf?_eq_none_iff (cols : List String) (c : String) :
    idxOf? cols c = none ↔ c ∉ cols := by
  induction cols with
  | nil => simp [idxOf?]
  | cons x cols ih =>
    by_cases hx : x = c
    · subst hx
      simp [idxOf?]
    · simp [idxOf?, hx, ih, Option.map_eq_none', Ne.symm hx]

theorem idxOf?_mem (cols : List String) (c : String) (h : c ∈ cols) :
    ∃ i, idxOf? cols c = some i := by
  cases hi : idxOf? cols c with
  | none => exact absurd ((idxOf?_eq_none_iff cols c).mp hi) (by simp [h])
  | some i => exact ⟨i, rfl⟩

theorem idxOf?_ne (cols : List String) (c1 c2 : String) (i j : Nat)
    (h1 : idxOf? cols c1 = some i) (h2 : idxOf? cols c2 = some j)
    (hne : c1 ≠ c2) : i ≠ j := by
  induction cols generalizing i j with
  | nil => simp [idxOf?] at h1
  | cons x cols ih =>
    by_cases hx1 : x = c1
    · subst hx1
      have hx2 : ¬ x = c2 := fun e => hne (by rw [← e])
      simp [idxOf?] at h1
      simp [idxOf?, hx2] at h2
      rcases h2 with ⟨j2, hj2, hj⟩
      omega
    · by_cases hx2 : x = c2
      · subst hx2
        simp [idxOf?] at h2
        simp [idxOf?, hx1] at h1
        rcases h1 with ⟨i1, hi1, hi⟩
        omega
      · simp [idxOf?, hx1] at h1
        simp [idxOf?, hx2] at h2
        rcases h1 with ⟨i1, hi1, hi⟩
        rcases h2 with ⟨j1, hj1, hj⟩
        have := ih i1 j1 hi1 hj1
        omega

theorem idxOf?_lt_length (cols : List String) (c : String) (i : Nat)
    (h : idxOf? cols c = some i) : i < cols.length := by
  induction cols generalizing i with
  | nil => simp [idxOf?] at h
  | cons x cols ih =>
    by_cases hx : x = c
    · subst hx
      simp [idxOf?] at h
      rw [List.length_cons]
      omega
    · simp [idxOf?, hx] at h
      rcases h with ⟨i1, hi1, hi⟩
      have := ih i1 hi1
      rw [List.length_cons]
      omega

theorem idxOf?_append_of_ne (cols : List String) (c out : String)
    (h : c ≠ out) : idxOf? (cols ++ [out]) c = idxOf? cols c := by
  induction cols with
  | nil => simp [idxOf?, Ne.symm h]
  | cons x cols ih => simp [idxOf?, ih]

theorem set_getD_ne (l : List Value) (i j : Nat) (v d : Value)
    (h : i ≠ j) : (l.set i v).getD j d = l.getD j d := by
  induction l generalizing i j with
  | nil => simp
  | cons a l ih =>
    cases i with
    | zero =>
      cases j with
      | zero => exact absurd rfl h
      | succ j2 => simp
    | succ i2 =>
      cases j with
      | zero => simp
      | succ j2 => simpa using ih i2 j2 (by omega)

theorem getD_append_left (l l2 : List Value) (j : Nat) (d : Value)
    (h : j < l.length) : (l ++ l2).getD j d = l.getD j d := by
  induction l generalizing j with
  | nil => simp at h
  | cons a l ih =>
    cases j with
    | zero => simp
    | succ j2 => simpa using ih j2 (by simpa using h)

/-! ## Catalog lemmas -/

theorem lookup_replace_self (cat : Catalog) (n : String) (fr fr2 : Frame)
    (h : Catalog.lookup cat n = some fr) :
    Catalog.lookup (Catalog.replace cat n fr2) n = some fr2 := by
  induction cat with
  | nil => simp [Catalog.lookup] at h
  | cons e cat ih =>
    by_cases he : e.1 = n
    · simp [Catalog.replace, Catalog.lookup, he]
    · rw [show Catalog.replace (e :: cat) n fr2 = e :: Catalog.replace cat n fr2 by
        simp [Catalog.replace, he]]
      rw [show Catalog.lookup (e :: Catalog.replace cat n fr2) n
            = Catalog.lookup (Catalog.replace cat n fr2) n by
        simp [Catalog.lookup, he]]
      simp only [Catalog.lookup, he, if_false] at h
      exact ih h

/-! ## Projection and by-name row access -/

theorem projectIdxs_of_mem (cols cs : List String) (h : ∀ c ∈ cs, c ∈ cols) :
    ∃ idxs, projectIdxs cols cs = some idxs
      ∧ ∀ r : List Value,
          idxs.map (fun i => r.getD i Value.null)
            = cs.map (rowValueByName cols r) := by
  induction cs with
  | nil => exact ⟨[], rfl, fun r => rfl⟩
  | cons c cs ih =>
    rcases idxOf?_mem cols c (h c (by simp)) with ⟨i, hi⟩
    rcases ih (fun c2 hc2 => h c2 (List.mem_cons_of_mem c hc2)) with
      ⟨idxs, hidxs, hvals⟩
    refine ⟨i :: idxs, ?_, ?_⟩
    · simp [projectIdxs, hi, hidxs]
    · intro r
      simp only [List.map_cons, hvals r]
      rw [show rowValueByName cols r c = r.getD i Value.null by
        unfold rowValueByName
        rw [hi]]

theorem project_of_mem (fr : Frame) (cs : List String)
    (h : ∀ c ∈ cs, c ∈ fr.cols) :
    fr.project cs
      = some ⟨cs, fr.rows.map (fun r => cs.map (rowValueByName fr.cols r))⟩ := by
  rcases projectIdxs_of_mem fr.cols cs h with ⟨idxs, hidxs, hvals⟩
  unfold Frame.project
  rw [hidxs]
  show some (Frame.mk cs
      (fr.rows.map (fun r => idxs.map (fun i => r.getD i Value.null))))
    = some (Frame.mk cs
      (fr.rows.map (fun r => cs.map (rowValueByName fr.cols r))))
  rw [List.map_congr_left (fun r _ => hvals r)]

theorem rowValueByName_head (a : String) (args : List String) (v : Value)
    (vs : List Value) :
    rowValueByName (a :: args) (v :: vs) a = v := by
  unfold rowValueByName
  simp [idxOf?]

theorem rowValueByName_tail (a p : String) (args : List String) (v : Value)
    (vs : List Value) (h : a ≠ p) :
    rowValueByName (a :: args) (v :: vs) p = rowValueByName args vs p := by
  unfold rowValueByName
  simp only [idxOf?, if_neg h]
  cases hi : idxOf? args p with
  | none => simp
  | some j => simp

/-- Looking a parameter up by name in the projected row reproduces its
by-name value in the original row: the record binding of `map_into`
(`func(**row)`) is insensitive to the physical order of the table's
columns. -/
theorem rowValueByName_proj (args cols : List String) (r : List Value)
    (p : String) (hp : p ∈ args) :
    rowValueByName args (args.map (rowValueByName cols r)) p
      = rowValueByName cols r p := by
  induction args with
  | nil => cases hp
  | cons a args ih =>
    by_cases hpa : a = p
    · subst hpa
      rw [List.map_cons, rowValueByName_head]
    · rw [List.map_cons, rowValueByName_tail a p _ _ _ hpa]
      rcases List.mem_cons.mp hp with h | h
      · exact absurd h.symm hpa
      · exact ih h

/-! ## Column-attachment (`df[output] = result`) lemmas -/

theorem zip_set_getD (rs : List (List Value)) (vs : List Value) (i j : Nat)
    (d : Value) (hij : i ≠ j) (hl : vs.length = rs.length) :
    ((rs.zip vs).map (fun p => p.1.set i p.2)).map (fun r => r.getD j d)
      = rs.map (fun r => r.getD j d) := by
  induction rs generalizing vs with
  | nil => rfl
  | cons r rs ih =>
    cases vs with
    | nil => simp at hl
    | cons v vs =>
      simp only [List.zip_cons_cons, List.map_cons]
      rw [set_getD_ne r i j v d hij, ih vs (by simpa using hl)]

theorem zip_append_getD (rs : List (List Value)) (vs : List Value) (j : Nat)
    (d : Value) (hl : vs.length = rs.length)
    (hj : ∀ r ∈ rs, j < r.length) :
    ((rs.zip vs).map (fun p => p.1 ++ [p.2])).map (fun r => r.getD j d)
      = rs.map (fun r => r.getD j d) := by
  induction rs generalizing vs with
  | nil => rfl
  | cons r rs ih =>
    cases vs with
    | nil => simp at hl
    | cons v vs =>
      simp only [List.zip_cons_cons, List.map_cons]
      rw [getD_append_left r [v] j d (hj r (by simp)),
          ih vs (by simpa using hl) (fun r2 h2 => hj r2 (List.mem_cons_of_mem r h2))]

/-- Attaching (or overwriting) the `output` column leaves the names and
relative order of all other columns unchanged. -/
theorem setCol_cols_filter (fr : Frame) (output : String) (vals : List Value) :
    (fr.setCol output vals).cols.filter (fun c => c ≠ output)
      = fr.cols.filter (fun c => c ≠ output) := by
  unfold Frame.setCol
  cases hi : idxOf? fr.cols output with
  | some i => rfl
  | none =>
    show (fr.cols ++ [output]).filter (fun c => c ≠ output) = _
    rw [List.filter_append]
    simp

/-- Attaching (or overwriting) the `output` column leaves the values of
every other column unchanged. -/
theorem setCol_getCol_ne (fr : Frame) (output : String) (vals : List Value)
    (c : String) (hc : c ≠ output)
    (hrect : ∀ r ∈ fr.rows, r.length = fr.cols.length)
    (hlen : vals.length = fr.rows.length) :
    (fr.setCol output vals).getCol c = fr.getCol c := by
  unfold Frame.setCol Frame.getCol
  cases hi : idxOf? fr.cols output with
  | some i =>
    show (idxOf? fr.cols c).map _ = (idxOf? fr.cols c).map _
    cases hj : idxOf? fr.cols c with
    | none => rfl
    | some j =>
      simp only [Option.map_some']
      rw [zip_set_getD fr.rows vals i j Value.null
            (idxOf?_ne fr.cols output c i j hi hj (Ne.symm hc)) hlen]
  | none =>
    show (idxOf? (fr.cols ++ [output]) c).map _ = (idxOf? fr.cols c).map _
    rw [idxOf?_append_of_ne fr.cols c output hc]
    cases hj : idxOf? fr.cols c with
    | none => rfl
    | some j =>
      simp only [Option.map_some']
      rw [zip_append_getD fr.rows vals j Value.null hlen
            (fun r hr => (hrect r hr) ▸ idxOf?_lt_length fr.cols c j hj)]

/-! ## The `map_into` success path -/

/-- Success-path characterization of `map_into`: when the target table
exists and the call succeeds, the persisted relation is the full prior
frame with the `output` column set to the values obtained by calling
`func` once per row with every positional parameter bound **by name** to
the column of the same name. -/
theorem engineExec_selectCols (cat : Catalog) (t : String) (fr : Frame)
    (args : List String) (hfr : Catalog.lookup cat t = some fr)
    (hargs : args ≠ []) (hmem : ∀ c ∈ args, c ∈ fr.cols) :
    engineExec cat ("SELECT " ++ commaJoin (args.map escape_sqlite_ident)
        ++ "\n                  FROM " ++ escape_sqlite_ident t)
      = .ok ⟨args, fr.rows.map (fun r => args.map (rowValueByName fr.cols r))⟩ := by
  unfold engineExec
  rw [parseSql_mapinto args t hargs]
  show execStmt cat (SqlStmt.selectCols args t) = _
  simp only [execStmt, hfr, project_of_mem fr args hmem]

theorem engineExec_star_escaped (cat : Catalog) (t : String) (fr : Frame)
    (hfr : Catalog.lookup cat t = some fr) :
    engineExec cat ("select * from " ++ escape_sqlite_ident t) = .ok fr := by
  unfold engineExec
  rw [parseSql_star_escaped]
  show execStmt cat (SqlStmt.selectStar t) = _
  simp only [execStmt, hfr]

theorem engineExec_mapinto_noargs (cat : Catalog) (t : String) :
    engineExec cat ("SELECT " ++ commaJoin ([].map escape_sqlite_ident)
        ++ "\n                  FROM " ++ escape_sqlite_ident t)
      = .error (.engine "syntax error") := by
  unfold engineExec
  rw [show ([] : List String).map escape_sqlite_ident = [] from List.map_nil,
      parseSql_mapinto_empty]

theorem toSql_replace (cat : Catalog) (df : Frame) (name : String) (fr : Frame)
    (h : Catalog.lookup cat name = some fr) :
    toSql cat df name "replace" = .ok (Catalog.replace cat name df) := by
  unfold toSql
  simp only [h]
  rfl

theorem add_table_replace (db : Database) (df : Frame) (name : String)
    (fr : Frame) (h : Catalog.lookup db.catalog name = some fr) :
    db.add_table df name "replace"
      = .ok ⟨Catalog.replace db.catalog name df,
             if name ∈ db.tables then db.tables else db.tables ++ [name]⟩ := by
  unfold Database.add_table
  rw [if_neg (by simp), if_neg (by simp),
      toSql_replace db.catalog df name fr h]

/-- Success-path characterization of `map_into`: when the target table
exists and the call succeeds, the persisted relation is the full prior
frame with the `output` column set to the values obtained by calling
`func` once per row with every positional parameter bound **by name** to
the column of the same name. -/
theorem map_into_ok_char (db : Database) (f : PyFunc)
    (table output : String) (ow : Bool) (db2 : Database) (fr : Frame)
    (hfr : Catalog.lookup db.catalog table = some fr)
    (hok : db.map_into f table output ow = .ok db2) :
    db2.catalog = Catalog.replace db.catalog table
      (fr.setCol output (fr.rows.map (fun r =>
        f.implPos (f.argNames.map (rowValueByName fr.cols r))))) := by
  unfold Database.map_into at hok
  rw [column_names_eq, hfr] at hok
  simp only [] at hok
  cases hfind : f.argNames.find? (fun a => !(fr.cols.contains a)) with
  | some a =>
    rw [hfind] at hok
    simp at hok
  | none =>
    rw [hfind] at hok
    have hmem : ∀ p ∈ f.argNames, p ∈ fr.cols := by
      intro p hp
      have := List.find?_eq_none.mp hfind p hp
      simpa using this
    cases hargs : f.argNames with
    | nil =>
      rw [hargs] at hok
      unfold Database.query at hok
      split at hok
      · simp at hok
      · rw [engineExec_mapinto_noargs] at hok
        split at hok
        · simp at hok
        · rename_i x frx heq
          split at heq
          · simp at heq
          · simp at heq
    | cons a args2 =>
      rw [← hargs]
      have hargs_ne : f.argNames ≠ [] := by rw [hargs]; simp
      unfold Database.query at hok
      split at hok
      · simp at hok
      · simp only [engineExec_selectCols db.catalog table fr f.argNames hfr
          hargs_ne hmem] at hok
        split at hok
        · simp at hok
        · rename_i x1 df1 heq1
          split at heq1
          · simp at heq1
          · simp only [Except.ok.injEq] at heq1
            subst heq1
            split at hok
            · simp at hok
            · simp only [engineExec_star_escaped db.catalog table fr hfr] at hok
              split at hok
              · simp at hok
              · rename_i x2 full2 heq2
                split at heq2
                · simp at heq2
                · simp only [Except.ok.injEq] at heq2
                  subst heq2
                  rw [add_table_replace db _ table fr hfr] at hok
                  simp only [Except.ok.injEq] at hok
                  have hrows : (fr.rows.map (fun r =>
                        f.argNames.map (rowValueByName fr.cols r))).map (fun r =>
                          f.implPos (f.argNames.map (rowValueByName f.argNames r)))
                      = fr.rows.map (fun r =>
                          f.implPos (f.argNames.map (rowValueByName fr.cols r))) := by
                    rw [List.map_map]
                    refine List.map_congr_left (fun r _ => ?_)
                    show f.implPos _ = f.implPos _
                    congr 1
                    refine List.map_congr_left (fun p hp => ?_)
                    exact rowValueByName_proj f.argNames fr.cols r p hp
                  rw [← hok]
                  show Catalog.replace db.catalog table _ = _
                  rw [hrows]

theorem project_some_rows_len (fr : Frame) (cs : List String) (sub : Frame)
    (h : fr.project cs = some sub) : sub.rows.length = fr.rows.length := by
  unfold Frame.project at h
  cases hp : projectIdxs fr.cols cs with
  | none =>
    rw [hp] at h
    simp at h
  | some idxs =>
    rw [hp] at h
    simp only [Option.some.injEq] at h
    rw [← h]
    simp

/-- Success-path characterization of `map`: when the raw table name
interpolates into a well-formed `SELECT * FROM` statement and the call
succeeds, the persisted relation is the full prior frame with the
`output` column set to a value list with one entry per row. -/
theorem map_ok_char (db : Database) (f : PyFunc) (table : String)
    (columns : List String) (output : String) (ow : Bool) (db2 : Database)
    (fr : Frame)
    (hfr : Catalog.lookup db.catalog table = some fr)
    (hparse : parseSql ("SELECT * FROM " ++ table)
      = some (SqlStmt.selectStar table))
    (hok : db.map f table columns output ow = .ok db2) :
    ∃ vals, vals.length = fr.rows.length
      ∧ db2.catalog
          = Catalog.replace db.catalog table (fr.setCol output vals) := by
  have hexec : engineExec db.catalog ("SELECT * FROM " ++ table) = .ok fr := by
    unfold engineExec
    rw [hparse]
    show execStmt db.catalog (SqlStmt.selectStar table) = _
    simp only [execStmt, hfr]
  unfold Database.map at hok
  unfold Database.query at hok
  split at hok
  · simp at hok
  · rename_i x1 df1 heq1
    split at heq1
    · simp at heq1
    · rw [hexec] at heq1
      simp only [Except.ok.injEq] at heq1
      subst heq1
      split at hok
      · simp at hok
      · cases hproj : fr.project columns with
        | none =>
          rw [hproj] at hok
          simp at hok
        | some sub =>
          rw [hproj] at hok
          simp only [] at hok
          rw [add_table_replace db _ table fr hfr] at hok
          simp only [Except.ok.injEq] at hok
          refine ⟨sub.rows.map f.implPos, ?_, ?_⟩
          · rw [List.length_map]
            exact project_some_rows_len fr columns sub hproj
          · rw [← hok]

/-- The engine reports only `engine`-kind errors. -/
theorem engineExec_error_engine (cat : Catalog) (sql : String) (e : FaroError)
    (h : engineExec cat sql = .error e) : ∃ m, e = FaroError.engine m := by
  unfold engineExec at h
  cases hp : parseSql sql with
  | none =>
    rw [hp] at h
    simp only [Except.error.injEq] at h
    exact ⟨"syntax error", h.symm⟩
  | some stmt =>
    rw [hp] at h
    cases stmt with
    | selectStar t =>
      simp only [execStmt] at h
      cases hl : Catalog.lookup cat t with
      | some fr =>
        simp only [hl] at h
        simp at h
      | none =>
        simp only [hl] at h
        simp only [Except.error.injEq] at h
        exact ⟨_, h.symm⟩
    | selectCols cs t =>
      simp only [execStmt] at h
      cases hl : Catalog.lookup cat t with
      | some fr =>
        simp only [hl] at h
        cases hp2 : fr.project cs with
        | some fr2 =>
          simp only [hp2] at h
          simp at h
        | none =>
          simp only [hp2] at h
          simp only [Except.error.injEq] at h
          exact ⟨_, h.symm⟩
      | none =>
        simp only [hl] at h
        simp only [Except.error.injEq] at h
        exact ⟨_, h.symm⟩
    | pragmaTableInfoNames t =>
      simp only [execStmt] at h
      simp at h

/-- `add_table` reports only policy, collision, or engine errors — never
a `map_into` binding error. -/
theorem add_table_error_kinds (db : Database) (df : Frame) (name pol : String)
    (e : FaroError) (h : db.add_table df name pol = .error e) :
    e = FaroError.invalidPolicy ∨ (∃ n, e = FaroError.alreadyExists n)
      ∨ ∃ m, e = FaroError.engine m := by
  unfold Database.add_table at h
  split at h
  · simp only [Except.error.injEq] at h
    exact Or.inl h.symm
  · split at h
    · simp only [Except.error.injEq] at h
      exact Or.inr (Or.inl ⟨name, h.symm⟩)
    · split at h
      · rename_i e2 heq
        simp only [Except.error.injEq] at h
        subst h
        unfold toSql at heq
        cases hl : Catalog.lookup db.catalog name with
        | none =>
          simp only [hl] at heq
          simp at heq
        | some old =>
          simp only [hl] at heq
          split at heq
          · simp at heq
          · split at heq
            · split at heq
              · simp at heq
              · simp only [Except.error.injEq] at heq
                exact Or.inr (Or.inr ⟨_, heq.symm⟩)
            · simp only [Except.error.injEq] at heq
              exact Or.inr (Or.inr ⟨_, heq.symm⟩)
      · simp at h

/-- Full characterization of `map_into`'s binding failure: the call
raises the unbound-parameter error for `a` exactly when `a` is the first
declared parameter name that is not a column of the table.  The right
side mentions neither the function's behaviour nor the rest of the
database state: the check happens before any row is processed and before
any mutating engine call. -/
theorem map_into_unbound_iff (db : Database) (f : PyFunc)
    (table output : String) (ow : Bool) (fr : Frame) (a : String)
    (hfr : Catalog.lookup db.catalog table = some fr) :
    db.map_into f table output ow = .error (.unboundParameter a table)
      ↔ f.argNames.find? (fun p => !(fr.cols.contains p)) = some a := by
  constructor
  · intro h
    unfold Database.map_into at h
    rw [column_names_eq, hfr] at h
    simp only [] at h
    cases hfind : f.argNames.find? (fun p => !(fr.cols.contains p)) with
    | some a2 =>
      rw [hfind] at h
      simp only [Except.error.injEq, FaroError.unboundParameter.injEq] at h
      rw [h.1]
    | none =>
      exfalso
      rw [hfind] at h
      split at h
      · rename_i e heq
        simp at heq
      · split at h
        · rename_i e heq
          simp only [Except.error.injEq] at h
          subst h
          unfold Database.query at heq
          split at heq
          · simp at heq
          · rcases engineExec_error_engine _ _ _ heq with ⟨m, hm⟩
            simp at hm
        · split at h
          · simp at h
          · split at h
            · rename_i e heq
              simp only [Except.error.injEq] at h
              subst h
              unfold Database.query at heq
              split at heq
              · simp at heq
              · rcases engineExec_error_engine _ _ _ heq with ⟨m, hm⟩
                simp at hm
            · rcases add_table_error_kinds _ _ _ _ _ h with h2 | ⟨n, h2⟩ | ⟨m, h2⟩
                <;> simp at h2
  · intro hfind
    unfold Database.map_into
    rw [column_names_eq, hfr]
    simp only []
    rw [hfind]

/-! ## Claims -/

/-- **C7.** The identifier sanitizer is a pure total function (a Lean
function by construction — it never fails): for every input string it
returns the input wrapped in double quotes with every embedded double
quote doubled (`escChars` is the character-level model of
`ident.replace('"','""')` in database.py:336), and the result always
lexes as exactly one quoted identifier whose content is the original
input — a valid quoted identifier, safe for interpolation into SQL text
even for pathological input. -/
theorem c7_escape_sqlite_ident (s : String) :
    escape_sqlite_ident s = ⟨'"' :: (escChars s.data ++ ['"'])⟩
      ∧ tokenize (escape_sqlite_ident s) = some [Tok.quoted s] := by
  refine ⟨rfl, ?_⟩
  unfold tokenize
  rw [lexAux_escape_nil]
  rfl

/-- **C9 counterexample.** On a database with no relations at all,
`column_names "missing"` returns the normal result `[]` — the engine's
`pragma_table_info` yields no rows for an unknown table — rather than
failing with an engine-reported error as the claim states. -/
theorem c9_counterexample :
    Database.column_names ⟨[], []⟩ "missing" = .ok [] := by rfl

/-- **C9 (amended).** For every table name that does not name an
existing relation in the engine catalog, `column_names` does not fail:
it returns the empty list, because SQLite's `pragma_table_info` yields
zero rows for an unknown table and database.py:316-319 just collects
the (zero) name fields. -/
theorem c9_column_names_missing (db : Database) (t : String)
    (h : Catalog.lookup db.catalog t = none) :
    db.column_names t = .ok [] := by
  rw [column_names_eq, h]

/-- **C9 witness.** -/
theorem c9_witness : Database.column_names ⟨[], []⟩ "nosuch" = .ok [] :=
  c9_column_names_missing ⟨[], []⟩ "nosuch" rfl

/-- **C6.** `query` splits its input on the statement separator `;`
(`splitSemis` models Python's `sql.split(';')` at database.py:173) and
fails with the `MultiStatementError`-kind error exactly when more than
one non-empty piece results — for every database state, and before any
engine execution (when the check fires the result does not depend on
the engine at all); otherwise (a single statement, with or without a
trailing separator) the statement is handed to the engine. -/
theorem c6_query_single_statement (db : Database) (sql : String) :
    (db.query sql = .error .multiStatement
        ↔ ((splitSemis sql.data).filter (fun e => e ≠ [])).length > 1)
      ∧ (((splitSemis sql.data).filter (fun e => e ≠ [])).length ≤ 1
          → db.query sql = engineExec db.catalog sql) := by
  constructor
  · constructor
    · intro h
      by_contra hc
      unfold Database.query at h
      rw [if_neg hc] at h
      rcases engineExec_error_engine _ _ _ h with ⟨m, hm⟩
      exact FaroError.noConfusion hm
    · intro hgt
      unfold Database.query
      rw [if_pos hgt]
  · intro hle
    unfold Database.query
    rw [if_neg (by omega)]

/-- **C6 witness.** -/
theorem c6_witness :
    Database.query ⟨[], []⟩ "SELECT 1; SELECT 2" = .error .multiStatement
      ∧ Database.query ⟨[], []⟩ "SELECT 1;"
          = engineExec (Database.mk [] []).catalog "SELECT 1;" :=
  ⟨(c6_query_single_statement ⟨[], []⟩ "SELECT 1; SELECT 2").1.mpr (by decide),
   (c6_query_single_statement ⟨[], []⟩ "SELECT 1;").2 (by decide)⟩

/-- **C5.** `add_table` with a name already registered to the instance
and policy `fail` raises the `AlreadyExistsError`-kind error; the check
runs before the engine write (`toSql`), so no engine call is made and
the original relation is untouched (the error branch returns the state
unchanged by construction).  Consequently, ingesting under a fresh name
and then re-ingesting under the same name with policy `fail` always
raises this error. -/
theorem c5_add_table_fail (db : Database) (df df2 : Frame)
    (name pol : String) (db1 : Database) :
    (name ∈ db.tables
        → db.add_table df name "fail" = .error (.alreadyExists name))
      ∧ (db.add_table df name pol = .ok db1
          → db1.add_table df2 name "fail" = .error (.alreadyExists name)) := by
  have base : ∀ dbx : Database, name ∈ dbx.tables
      → dbx.add_table df2 name "fail" = .error (.alreadyExists name) := by
    intro dbx hmem
    unfold Database.add_table
    rw [if_neg (by simp), if_pos ⟨hmem, rfl⟩]
  constructor
  · intro hmem
    unfold Database.add_table
    rw [if_neg (by simp), if_pos ⟨hmem, rfl⟩]
  · intro hok
    have hmem : name ∈ db1.tables := by
      unfold Database.add_table at hok
      split at hok
      · simp at hok
      · split at hok
        · simp at hok
        · cases hts : toSql db.catalog df name pol with
          | error e =>
            rw [hts] at hok
            simp at hok
          | ok cat2 =>
            rw [hts] at hok
            simp only [Except.ok.injEq] at hok
            rw [← hok]
            show name ∈ (if name ∈ db.tables then db.tables
                else db.tables ++ [name])
            by_cases hm : name ∈ db.tables
            · rw [if_pos hm]
              exact hm
            · rw [if_neg hm]
              simp
    exact base db1 hmem

/-- **C5 witness.** -/
theorem c5_witness :
    Database.add_table ⟨[("t", Frame.mk ["x"] [])], ["t"]⟩
        (Frame.mk ["y"] []) "t" "fail" = .error (.alreadyExists "t") :=
  (c5_add_table_fail ⟨[], []⟩ (Frame.mk ["x"] []) (Frame.mk ["y"] [])
      "t" "fail" ⟨[("t", Frame.mk ["x"] [])], ["t"]⟩).2 rfl

/-- **C3.** Binding validation of `map_into` on an existing table: the
call raises the `UnboundParameterError`-kind error naming `a` exactly
when `a` is the first derived parameter name that is not a column of
the table's current schema; in particular binding succeeds (no such
error is ever raised) iff every derived name is a column.  The
right-hand sides mention neither the function's behaviour, nor the
output column, the overwrite flag, or the rest of the engine state:
the check (database.py:289-292) runs before any row is processed and
before any mutating engine call, and an error result carries no new
state, leaving the relation unchanged. -/
theorem c3_map_into_binding (db : Database) (f : PyFunc)
    (table output : String) (ow : Bool) (fr : Frame)
    (hfr : Catalog.lookup db.catalog table = some fr) :
    (∀ a, db.map_into f table output ow = .error (.unboundParameter a table)
        ↔ f.argNames.find? (fun p => !(fr.cols.contains p)) = some a)
      ∧ ((∀ p ∈ f.argNames, p ∈ fr.cols)
          ↔ ∀ a, db.map_into f table output ow
              ≠ .error (.unboundParameter a table)) := by
  have hiff := fun a => map_into_unbound_iff db f table output ow fr a hfr
  refine ⟨hiff, ?_, ?_⟩
  · intro hmem a h
    rw [hiff a] at h
    have hpa := List.find?_some h
    have hma := List.mem_of_find?_eq_some h
    simp only [Bool.not_eq_eq_eq_not, Bool.not_true] at hpa
    rw [show fr.cols.contains a = List.elem a fr.cols from rfl,
        List.elem_eq_mem, decide_eq_false_iff_not] at hpa
    exact hpa (hmem a hma)
  · intro hne p hp
    by_contra hpc
    cases hf : f.argNames.find? (fun p => !(fr.cols.contains p)) with
    | none =>
      have := List.find?_eq_none.mp hf p hp
      simp only [Bool.not_eq_eq_eq_not, Bool.not_true] at this
      rw [show fr.cols.contains p = List.elem p fr.cols from rfl,
          List.elem_eq_mem, decide_eq_false_iff_not] at this
      exact this hpc
    | some a => exact hne a ((hiff a).mpr hf)

/-- **C3 witness.** A one-parameter function whose parameter is not a
column: the unbound error is raised and names it. -/
theorem c3_witness :
    Database.map_into ⟨[("t", Frame.mk ["x"] [])], ["t"]⟩
        ⟨["x", "y"], 0, [], false, false, fun _ => Value.null⟩
        "t" "o" false
      = .error (.unboundParameter "y" "t") :=
  ((c3_map_into_binding ⟨[("t", Frame.mk ["x"] [])], ["t"]⟩
      ⟨["x", "y"], 0, [], false, false, fun _ => Value.null⟩
      "t" "o" false (Frame.mk ["x"] []) rfl).1 "y").mpr (by decide)

/-- **C1.** End-to-end behaviour of `map_into`: ingesting a 3-row,
2-column source (`id`: 1,2,3; `val`: 10,20,30) as table `t`, then
calling `map_into` with `f(id, val) -> id * val` and output `total`,
succeeds; querying `t` afterwards yields exactly the rows
`(1,10,10), (2,20,40), (3,30,90)`, and `column_names "t"` lists
`total` as the last column — the two pre-existing columns were
re-fetched (database.py:309-310) and preserved in place. -/
theorem c1_end_to_end :
    Database.add_table ⟨[], []⟩
        ⟨["id", "val"],
         [[Value.int 1, Value.int 10], [Value.int 2, Value.int 20],
          [Value.int 3, Value.int 30]]⟩ "t" "fail"
      = .ok ⟨[("t", ⟨["id", "val"],
             [[Value.int 1, Value.int 10], [Value.int 2, Value.int 20],
              [Value.int 3, Value.int 30]]⟩)], ["t"]⟩
    ∧ Database.map_into
        ⟨[("t", ⟨["id", "val"],
           [[Value.int 1, Value.int 10], [Value.int 2, Value.int 20],
            [Value.int 3, Value.int 30]]⟩)], ["t"]⟩
        ⟨["id", "val"], 0, [], false, false,
         fun vs => match vs with
           | [Value.int a, Value.int b] => Value.int (a * b)
           | _ => Value.null⟩
        "t" "total" false
      = .ok ⟨[("t", ⟨["id", "val", "total"],
             [[Value.int 1, Value.int 10, Value.int 10],
              [Value.int 2, Value.int 20, Value.int 40],
              [Value.int 3, Value.int 30, Value.int 90]]⟩)], ["t"]⟩
    ∧ Database.query
        ⟨[("t", ⟨["id", "val", "total"],
           [[Value.int 1, Value.int 10, Value.int 10],
            [Value.int 2, Value.int 20, Value.int 40],
            [Value.int 3, Value.int 30, Value.int 90]]⟩)], ["t"]⟩
        "SELECT * FROM t"
      = .ok ⟨["id", "val", "total"],
             [[Value.int 1, Value.int 10, Value.int 10],
              [Value.int 2, Value.int 20, Value.int 40],
              [Value.int 3, Value.int 30, Value.int 90]]⟩
    ∧ Database.column_names
        ⟨[("t", ⟨["id", "val", "total"],
           [[Value.int 1, Value.int 10, Value.int 10],
            [Value.int 2, Value.int 20, Value.int 40],
            [Value.int 3, Value.int 30, Value.int 90]]⟩)], ["t"]⟩
        "t"
      = .ok ["id", "val", "total"] :=
  ⟨rfl, rfl, rfl, rfl⟩

/-- **C2 counterexample.** `f(a, b=…)` has one defaulted positional
parameter `b`.  Under the claim, the binding column list excludes
defaulted parameters, so on a table with single column `a` the binding
list would be `["a"]` — entirely made of existing columns — and the
name resolution would not involve `b`.  The code, however, derives
`co_varnames[:co_argcount]`, which includes `b`, and raises the
unbound-parameter error for `b`. -/
theorem c2_counterexample :
    Database.map_into ⟨[("u", ⟨["a"], [[Value.int 1]]⟩)], ["u"]⟩
        ⟨["a", "b"], 1, [], false, false, fun _ => Value.int 0⟩
        "u" "out" false
      = .error (.unboundParameter "b" "u")
    ∧ specDeclaredBindingNames
        ⟨["a", "b"], 1, [], false, false, fun _ => Value.int 0⟩ = ["a"]
    ∧ "a" ∈ (⟨["a"], [[Value.int 1]]⟩ : Frame).cols :=
  ⟨rfl, rfl, by decide⟩

/-- **C2 (amended).** The binding column list of `map_into` is
`co_varnames[:co_argcount]` (`PyFunc.argNames`): the positional declared
parameter names in declared order, *including* parameters that carry
defaults and excluding only variadic and keyword-only parameters.  On
every successful call the persisted relation carries the new column
computed by invoking the function once per row with each argument bound
by parameter name to the column of the same name
(`rowValueByName fr.cols`), so the binding depends only on the
name-to-value mapping of each row and not on the table's physical
column order. -/
theorem c2_map_into_name_binding (db : Database) (f : PyFunc)
    (table output : String) (ow : Bool) (db2 : Database) (fr : Frame)
    (hfr : Catalog.lookup db.catalog table = some fr)
    (hok : db.map_into f table output ow = .ok db2) :
    f.argNames = f.posParams
      ∧ Catalog.lookup db2.catalog table
          = some (fr.setCol output (fr.rows.map (fun r =>
              f.implPos (f.argNames.map (rowValueByName fr.cols r))))) := by
  refine ⟨rfl, ?_⟩
  rw [map_into_ok_char db f table output ow db2 fr hfr hok]
  exact lookup_replace_self db.catalog table fr _ hfr

/-- **C2 witness.** -/
theorem c2_witness :
    Catalog.lookup
        (Database.mk [("t", ⟨["x", "y"], [[Value.int 5, Value.int 5]]⟩)]
          ["t"]).catalog "t"
      = some ((⟨["x"], [[Value.int 5]]⟩ : Frame).setCol "y"
          ((⟨["x"], [[Value.int 5]]⟩ : Frame).rows.map (fun r =>
            (⟨["x"], 0, [], false, false,
              fun vs => vs.headD Value.null⟩ : PyFunc).implPos
              ((⟨["x"], 0, [], false, false,
                fun vs => vs.headD Value.null⟩ : PyFunc).argNames.map
                (rowValueByName (⟨["x"], [[Value.int 5]]⟩ : Frame).cols r))))) :=
  (c2_map_into_name_binding
    ⟨[("t", ⟨["x"], [[Value.int 5]]⟩)], ["t"]⟩
    ⟨["x"], 0, [], false, false, fun vs => vs.headD Value.null⟩
    "t" "y" false
    ⟨[("t", ⟨["x", "y"], [[Value.int 5, Value.int 5]]⟩)], ["t"]⟩
    (⟨["x"], [[Value.int 5]]⟩ : Frame) rfl rfl).2

/-- **C4 counterexample.** A zero-parameter function with an existing
output column and `overwrite = false`: the claim demands the
`ColumnExistsError`-kind failure, but `map_into` builds
`SELECT  FROM "t"` (empty select list) and the fetch — which precedes
the overwrite check (database.py:297 before :299) — fails with the
engine's syntax error instead. -/
theorem c4_counterexample :
    Database.map_into ⟨[("t", ⟨["x"], [[Value.int 5]]⟩)], ["t"]⟩
        ⟨[], 0, [], false, false, fun _ => Value.int 7⟩ "t" "x" false
      = .error (.engine "syntax error")
    ∧ (FaroError.engine "syntax error" : FaroError)
      ≠ FaroError.columnExists "x" :=
  ⟨rfl, by decide⟩

/-- **C4 (amended).** When the call actually reaches the overwrite
check — for `map`: the raw-interpolated fetch parses and is a single
statement; for `map_into`: the function declares at least one
parameter, all of its parameters are columns, and the generated
statement is not split by a stray `;` in a name — an existing `output`
column with `overwrite = false` always fails with the
`ColumnExistsError`-kind error, for **every** function body (the user
function is never invoked), and the error is raised before the
persisting `add_table` call, leaving the table's data unchanged. -/
theorem c4_overwrite_guard (db : Database) (f g : PyFunc) (table : String)
    (columns : List String) (output : String) (fr : Frame)
    (hfr : Catalog.lookup db.catalog table = some fr)
    (hout : output ∈ fr.cols)
    (hparse : parseSql ("SELECT * FROM " ++ table)
      = some (SqlStmt.selectStar table))
    (hsemi_t : ';' ∉ table.data)
    (hargs_ne : g.argNames ≠ [])
    (hargs_mem : ∀ p ∈ g.argNames, p ∈ fr.cols)
    (hargs_semi : ∀ p ∈ g.argNames, ';' ∉ p.data) :
    db.map f table columns output false = .error (.columnExists output)
      ∧ db.map_into g table output false = .error (.columnExists output) := by
  constructor
  · have hq : db.query ("SELECT * FROM " ++ table) = .ok fr := by
      rw [query_eq_exec_of_no_semi db _ (by
        rw [String.data_append]
        intro hm
        rcases List.mem_append.mp hm with hm | hm
        · exact absurd hm (by decide)
        · exact hsemi_t hm)]
      unfold engineExec
      rw [hparse]
      show execStmt db.catalog (SqlStmt.selectStar table) = _
      simp only [execStmt, hfr]
    unfold Database.map
    simp only [hq]
    rw [if_pos ⟨hout, by trivial⟩]
  · unfold Database.map_into
    rw [column_names_eq, hfr]
    simp only []
    have hfind : g.argNames.find? (fun p => !(fr.cols.contains p)) = none := by
      apply List.find?_eq_none.mpr
      intro p hp h
      have hc : fr.cols.contains p = true := by
        rw [show fr.cols.contains p = List.elem p fr.cols from rfl,
            List.elem_eq_mem]
        exact decide_eq_true (hargs_mem p hp)
      rw [hc] at h
      simp at h
    rw [hfind]
    have hq2 : db.query ("SELECT "
        ++ commaJoin (g.argNames.map escape_sqlite_ident)
        ++ "\n                  FROM " ++ escape_sqlite_ident table)
        = .ok ⟨g.argNames, fr.rows.map (fun r =>
            g.argNames.map (rowValueByName fr.cols r))⟩ := by
      rw [query_eq_exec_of_no_semi db _
        (semi_not_mem_mapinto_sql g.argNames table hargs_semi hsemi_t)]
      exact engineExec_selectCols db.catalog table fr g.argNames hfr
        hargs_ne hargs_mem
    simp only [hq2]
    rw [if_pos ⟨hout, by trivial⟩]

/-- **C4 witness.** -/
theorem c4_witness :
    Database.map ⟨[("t", ⟨["x"], [[Value.int 5]]⟩)], ["t"]⟩
        ⟨["x"], 0, [], false, false, fun _ => Value.null⟩
        "t" ["x"] "x" false
      = .error (.columnExists "x")
    ∧ Database.map_into ⟨[("t", ⟨["x"], [[Value.int 5]]⟩)], ["t"]⟩
        ⟨["x"], 0, [], false, false, fun _ => Value.null⟩
        "t" "x" false
      = .error (.columnExists "x") :=
  c4_overwrite_guard ⟨[("t", ⟨["x"], [[Value.int 5]]⟩)], ["t"]⟩
    ⟨["x"], 0, [], false, false, fun _ => Value.null⟩
    ⟨["x"], 0, [], false, false, fun _ => Value.null⟩
    "t" ["x"] "x" (⟨["x"], [[Value.int 5]]⟩ : Frame)
    rfl (by decide) rfl (by decide) (by decide)
    (by decide) (by decide)

/-- **C8 counterexample.** The table `a"b` exists (its name requires
quoting), yet `map` — which interpolates the raw table name into its
SQL (database.py:231) instead of passing it through the sanitizer —
fails with an engine syntax error rather than operating on the table
successfully as the claim states. -/
theorem c8_counterexample :
    Database.map ⟨[("a\"b", ⟨["x"], [[Value.int 5]]⟩)], ["a\"b"]⟩
        ⟨["x"], 0, [], false, false, fun vs => vs.headD Value.null⟩
        "a\"b" ["x"] "y" false
      = .error (.engine "syntax error") := by rfl

/-- **C8 (amended).** `map_into` and `column_names` pass every
identifier through the sanitizer and therefore operate correctly even
on tables whose names require quoting: `column_names` reports the exact
column list of **any** existing table, and `map_into` succeeds on the
table named `a"b`.  `map`, by contrast, interpolates the raw table name
(database.py:231), so on a table whose name fails to lex as one bare
identifier — such as `a"b`, whose stray quote leaves an unterminated
quoted token — it fails with an engine syntax error for every database
state, function, column list and flag. -/
theorem c8_sanitizer_coverage :
    (∀ (db : Database) (t : String) (fr : Frame),
        Catalog.lookup db.catalog t = some fr
          → db.column_names t = .ok fr.cols)
      ∧ (∀ (db : Database) (f : PyFunc) (columns : List String)
            (output : String) (ow : Bool),
          db.map f "a\"b" columns output ow = .error (.engine "syntax error"))
      ∧ Database.map_into ⟨[("a\"b", ⟨["x"], [[Value.int 5]]⟩)], ["a\"b"]⟩
          ⟨["x"], 0, [], false, false, fun vs => vs.headD Value.null⟩
          "a\"b" "y" false
        = .ok ⟨[("a\"b", ⟨["x", "y"], [[Value.int 5, Value.int 5]]⟩)],
               ["a\"b"]⟩ := by
  refine ⟨?_, ?_, rfl⟩
  · intro db t fr h
    rw [column_names_eq, h]
  · intro db f columns output ow
    have hex : engineExec db.catalog ("SELECT * FROM " ++ "a\"b")
        = .error (.engine "syntax error") := by
      unfold engineExec
      rw [show parseSql ("SELECT * FROM " ++ "a\"b") = none from rfl]
    unfold Database.map
    unfold Database.query
    rw [if_neg (by decide), hex]

/-- **C8 witness.** -/
theorem c8_witness :
    Database.column_names ⟨[("a\"b", ⟨["x"], [[Value.int 5]]⟩)], ["a\"b"]⟩
        "a\"b" = .ok ["x"]
      ∧ Database.map ⟨[], []⟩
          ⟨["x"], 0, [], false, false, fun _ => Value.null⟩
          "a\"b" [] "y" false = .error (.engine "syntax error") :=
  ⟨c8_sanitizer_coverage.1 ⟨[("a\"b", ⟨["x"], [[Value.int 5]]⟩)], ["a\"b"]⟩
      "a\"b" (⟨["x"], [[Value.int 5]]⟩ : Frame) rfl,
   c8_sanitizer_coverage.2.1 ⟨[], []⟩
      ⟨["x"], 0, [], false, false, fun _ => Value.null⟩ [] "y" false⟩

/-- **C10 counterexample.** The claim is not true of every successful
`map` call on an existing table: `map` interpolates the **raw** table
name into `SELECT * FROM {table}` (database.py:231), so when a relation
literally named `"x"` (quote characters included) coexists with a
relation named `x`, the fetch resolves the quoted identifier to table
`x`.  The call succeeds, yet the whole-relation replace persists table
`x`'s data under the name `"x"`: column `p` of the original table —
a non-output column — is absent from the persisted replacement. -/
theorem c10_counterexample :
    Database.map
        ⟨[("\"x\"", ⟨["p"], [[Value.int 1]]⟩),
          ("x", ⟨["a"], [[Value.int 2]]⟩)], ["\"x\"", "x"]⟩
        ⟨["a"], 0, [], false, false, fun vs => vs.headD Value.null⟩
        "\"x\"" ["a"] "out" false
      = .ok ⟨[("\"x\"", ⟨["a", "out"], [[Value.int 2, Value.int 2]]⟩),
              ("x", ⟨["a"], [[Value.int 2]]⟩)], ["\"x\"", "x"]⟩
    ∧ "p" ∈ (⟨["p"], [[Value.int 1]]⟩ : Frame).cols
    ∧ "p" ≠ "out"
    ∧ (⟨["a", "out"], [[Value.int 2, Value.int 2]]⟩ : Frame).getCol "p"
        = none :=
  ⟨rfl, by decide, by decide, rfl⟩

/-- **C10 (amended).** Frame effect of a successful `map` **when the
raw-interpolated fetch references the table itself** (its name lexes as
a single-statement `SELECT * FROM table` reference — true of ordinary
bare names): because `map` then fetches the entire table
(database.py:231) before attaching the output column and persisting by
whole-relation replace (database.py:244), every column other than
`output` — including columns not listed in the `columns` argument —
survives into the persisted replacement relation with identical name,
relative order (`List.filter` over the column list is unchanged) and
values (`Frame.getCol` is unchanged).  Without that proviso the raw
interpolation can resolve to a *different* relation and the successful
call loses the target's own columns (see the counterexample above). -/
theorem c10_map_frame_preservation (db : Database) (f : PyFunc)
    (table : String) (columns : List String) (output : String) (ow : Bool)
    (db2 : Database) (fr : Frame)
    (hfr : Catalog.lookup db.catalog table = some fr)
    (hrect : ∀ r ∈ fr.rows, r.length = fr.cols.length)
    (hparse : parseSql ("SELECT * FROM " ++ table)
      = some (SqlStmt.selectStar table))
    (hok : db.map f table columns output ow = .ok db2) :
    ∃ fr2, Catalog.lookup db2.catalog table = some fr2
      ∧ fr2.cols.filter (fun c => c ≠ output)
          = fr.cols.filter (fun c => c ≠ output)
      ∧ ∀ c, c ≠ output → fr2.getCol c = fr.getCol c := by
  rcases map_ok_char db f table columns output ow db2 fr hfr hparse hok with
    ⟨vals, hlen, hcat⟩
  refine ⟨fr.setCol output vals, ?_, setCol_cols_filter fr output vals,
    fun c hc => setCol_getCol_ne fr output vals c hc hrect hlen⟩
  rw [hcat]
  exact lookup_replace_self db.catalog table fr _ hfr

/-- **C10 witness.** Mapping over column `a` only: column `b` (not in
the `columns` argument) is preserved. -/
theorem c10_witness :
    ∃ fr2, Catalog.lookup
        (Database.mk
          [("t", ⟨["a", "b", "c"],
            [[Value.int 1, Value.int 2, Value.int 1]]⟩)] ["t"]).catalog "t"
      = some fr2
      ∧ fr2.cols.filter (fun c => c ≠ "c")
          = (⟨["a", "b"], [[Value.int 1, Value.int 2]]⟩ : Frame).cols.filter
              (fun c => c ≠ "c")
      ∧ ∀ c, c ≠ "c"
          → fr2.getCol c
            = (⟨["a", "b"], [[Value.int 1, Value.int 2]]⟩ : Frame).getCol c :=
  c10_map_frame_preservation
    ⟨[("t", ⟨["a", "b"], [[Value.int 1, Value.int 2]]⟩)], ["t"]⟩
    ⟨["a"], 0, [], false, false, fun vs => vs.headD Value.null⟩
    "t" ["a"] "c" false
    ⟨[("t", ⟨["a", "b", "c"], [[Value.int 1, Value.int 2, Value.int 1]]⟩)],
     ["t"]⟩
    (⟨["a", "b"], [[Value.int 1, Value.int 2]]⟩ : Frame)
    rfl (by decide) rfl rfl
